import Mathlib

/-!
Shallow embedding of the transaction-matching core of `zenmoney-tools`
(`src/credo/match.py`): the currency-transfer detector
(`find_currency_transfers`) and the matcher (`match_transactions`).

Conventions of the embedding:
* pandas `NaN`/`NaT` cells are `Option.none`; money amounts and timestamps
  are exact rationals (`ℚ`), timestamps measured in days;
* `sys.exit(1)` on a missing column category is `Except.error`;
* the IEEE quotient `credit / debit` of the source is modelled as
  `Option ℚ`, with `none` standing for the non-finite value (inf or NaN)
  produced by a zero divisor;
* Python's `sub in col.lower()` header tests are modelled with ASCII case
  folding, which is exact for the ASCII needles the source uses
  (date, income, outcome, currency, amount, sum);
* pandas `groupby` sorts its keys and drops null keys; the embedding
  sorts the distinct `(accountNumber, operationDateTime)` keys with an
  insertion sort over the code-point order on the account string.
-/

/-- ASCII lower-casing of a single code point, as `str.lower` acts on the
ASCII range: codes 65..90 are shifted by 32, everything else is kept. -/
def lowerCode (c : Char) : Nat :=
  if 65 ≤ c.toNat ∧ c.toNat ≤ 90 then c.toNat + 32 else c.toNat

/-- Does the (already lower-case) needle start the lower-cased haystack? -/
def lowerStartsWith : List Char → List Char → Bool
  | [], _ => true
  | _ :: _, [] => false
  | a :: as, b :: bs => (a.toNat == lowerCode b) && lowerStartsWith as bs

/-- Does the (already lower-case) needle occur inside the lower-cased
haystack? Models Python's `needle in hay.lower()`. -/
def lowerHasSub (needle : List Char) : List Char → Bool
  | [] => needle.isEmpty
  | b :: bs => lowerStartsWith needle (b :: bs) || lowerHasSub needle bs

/-- Header test `sub in col.lower()` used throughout `match.py` for column
classification. -/
def hasSub (col sub : String) : Bool :=
  lowerHasSub sub.data col.data

/-- Python's `abs` on an exact number. -/
def absQ (v : ℚ) : ℚ := if v < 0 then -v else v

/-- One row of the Credo bank feed, as loaded by `load_credo_json`:
`operationDateTime` is `none` for an unparseable (`NaT`) timestamp, and
`debit`/`credit` are `none` where the JSON field is null. -/
structure BankTransaction where
  accountNumber : String
  operationDateTime : Option ℚ
  transactionId : Nat
  stmtEntryId : Nat
  description : String
  currency : String
  debit : Option ℚ
  credit : Option ℚ
  amountEquivalent : Option ℚ
deriving Repr, DecidableEq

/-- Derived `amount` column of `load_credo_json`:
`credit.fillna(0) - debit.fillna(0)`. -/
def signedAmount (t : BankTransaction) : ℚ :=
  t.credit.getD 0 - t.debit.getD 0

/-- One emitted currency-transfer pair, with the fields built in
`find_currency_transfers`. `exchange_rate = none` models the non-finite
float produced when the debit leg is 0. -/
structure TransferPair where
  account_number : String
  operation_date_time : ℚ
  from_currency : String
  to_currency : String
  from_amount : ℚ
  to_amount : ℚ
  from_transaction_id : Nat
  to_transaction_id : Nat
  from_stmt_entry_id : Nat
  to_stmt_entry_id : Nat
  exchange_rate : Option ℚ
  from_amount_equivalent : Option ℚ
  to_amount_equivalent : Option ℚ
deriving Repr, DecidableEq

/-- The fixed marker string filtered on in `find_currency_transfers`. -/
def exchangeDescription : String := "Currency exchange"

/-- Grouping key of `groupby(['accountNumber', 'operationDateTime'])`. -/
abbrev GroupKey := String × ℚ

/-- Exchange-marked transactions with a parsed timestamp, each tagged with
its grouping key. Rows with a `NaT` timestamp are dropped, as pandas
`groupby` drops null keys. -/
def keyedExchanges (credo : List BankTransaction) : List (GroupKey × BankTransaction) :=
  (credo.filter (fun t => t.description == exchangeDescription)).filterMap
    (fun t => t.operationDateTime.map (fun time => ((t.accountNumber, time), t)))

/-- The members of one `groupby` group, in feed order. -/
def groupOf (credo : List BankTransaction) (k : GroupKey) : List BankTransaction :=
  (keyedExchanges credo).filterMap (fun p => if p.1 = k then some p.2 else none)

/-- Code-point lexicographic order on strings, the order pandas sorts
string group keys by. -/
def codeLt : List Char → List Char → Bool
  | [], [] => false
  | [], _ :: _ => true
  | _ :: _, [] => false
  | a :: as, b :: bs =>
      a.toNat < b.toNat || (a.toNat == b.toNat && codeLt as bs)

/-- Lexicographic comparison on `(accountNumber, operationDateTime)` keys. -/
def keyLe (a b : GroupKey) : Bool :=
  codeLt a.1.data b.1.data || (a.1 == b.1 && decide (a.2 ≤ b.2))

/-- Insertion step of the key sort. -/
def insertSortedKey (k : GroupKey) : List GroupKey → List GroupKey
  | [] => [k]
  | x :: xs => if keyLe k x then k :: x :: xs else x :: insertSortedKey k xs

/-- Insertion sort of the grouping keys, mirroring the sorted iteration
order of pandas `groupby`. -/
def sortKeys : List GroupKey → List GroupKey
  | [] => []
  | k :: ks => insertSortedKey k (sortKeys ks)

/-- The distinct grouping keys, in sorted iteration order. -/
def groupKeys (credo : List BankTransaction) : List GroupKey :=
  sortKeys ((keyedExchanges credo).map Prod.fst).dedup

/-- The TransferPair row built from the debit leg `d` and credit leg `c`
of one qualifying group (body of the `transfer_pair = {...}` literal). -/
def mkPairFrom (k : GroupKey) (d c : BankTransaction) : TransferPair :=
  { account_number := k.1
    operation_date_time := k.2
    from_currency := d.currency
    to_currency := c.currency
    from_amount := d.debit.getD 0
    to_amount := c.credit.getD 0
    from_transaction_id := d.transactionId
    to_transaction_id := c.transactionId
    from_stmt_entry_id := d.stmtEntryId
    to_stmt_entry_id := c.stmtEntryId
    exchange_rate :=
      if d.debit.getD 0 = 0 then none
      else some (c.credit.getD 0 / d.debit.getD 0)
    from_amount_equivalent := d.amountEquivalent
    to_amount_equivalent := c.amountEquivalent }

/-- Per-group body of `find_currency_transfers`: a group of size exactly 2
whose debit-non-null and credit-non-null sublists each have length 1 emits
one pair (from `iloc[0]` of each sublist); every other group emits none. -/
def mkTransferPair (k : GroupKey) (g : List BankTransaction) : Option TransferPair :=
  if g.length = 2 then
    if h : (g.filter (fun t => t.debit.isSome)).length = 1
        ∧ (g.filter (fun t => t.credit.isSome)).length = 1 then
      some (mkPairFrom k
        ((g.filter (fun t => t.debit.isSome)).head
          (by intro hnil; rw [hnil] at h; simp at h))
        ((g.filter (fun t => t.credit.isSome)).head
          (by intro hnil; rw [hnil] at h; simp at h)))
    else none
  else none

/-- Transfer detector `find_currency_transfers`: filter the feed to
exchange-marked rows, group by `(accountNumber, operationDateTime)`, and
emit one pair per qualifying group, in sorted group-key order. -/
def find_currency_transfers (credo : List BankTransaction) : List TransferPair :=
  (groupKeys credo).filterMap (fun k => mkTransferPair k (groupOf credo k))

/-- Predicate written from the specification's words for the transfer
detector: the group's size is exactly 2, exactly one member has a non-null
debit and exactly one has a non-null credit. -/
def cleanDebitCreditSplit (g : List BankTransaction) : Bool :=
  g.length == 2
    && g.countP (fun t => t.debit.isSome) == 1
    && g.countP (fun t => t.credit.isSome) == 1

/-- One row of the ZenMoney ledger: the association of column names to
cell values, `none` standing for a pandas `NaN`/`NaT` cell. Dates and
amounts both live in `ℚ` (dates in days). -/
abbrev ZenRow := List (String × Option ℚ)

/-- Cell access `zen_row[col]`: a column absent from the row reads as a
null cell. -/
def getCell (row : ZenRow) (col : String) : Option ℚ :=
  (List.lookup col row).join

/-- The ZenMoney ledger as loaded by `load_zen_csv`: ordered column
headers plus the rows in file order. -/
structure ZenTable where
  columns : List String
  rows : List ZenRow
deriving Repr, DecidableEq

/-- Columns whose lower-cased name contains the word date. -/
def dateColumns (zen : ZenTable) : List String :=
  zen.columns.filter (fun c => hasSub c "date")

/-- Columns whose lower-cased name contains income but not currency. -/
def incomeColumns (zen : ZenTable) : List String :=
  zen.columns.filter (fun c => hasSub c "income" && !hasSub c "currency")

/-- Columns whose lower-cased name contains outcome but not currency. -/
def outcomeColumns (zen : ZenTable) : List String :=
  zen.columns.filter (fun c => hasSub c "outcome" && !hasSub c "currency")

/-- Amount-column resolution of `match_transactions`: income columns then
outcome columns; only when both are absent, fall back to columns named
like amount or sum. -/
def amountColumns (zen : ZenTable) : List String :=
  let base := incomeColumns zen ++ outcomeColumns zen
  if base.isEmpty then
    zen.columns.filter (fun c => hasSub c "amount" || hasSub c "sum")
  else base

/-- Transfer annotation fields attached to a match that is one leg of a
detected currency transfer. -/
structure TransferInfo where
  transfer_type : String
  transfer_pair_currency : String
  transfer_pair_amount : ℚ
  transfer_pair_transaction_id : Nat
  exchange_rate : Option ℚ
deriving Repr, DecidableEq

/-- Transfer lookup of `match_transactions`: the from-side index is
consulted first (`transfer_from` then `elif transfer_to`), taking the
first matching row of the pair table in each case. -/
def transferInfoFor (transfers : List TransferPair) (tid : Nat) : Option TransferInfo :=
  match transfers.find? (fun p => p.from_transaction_id == tid) with
  | some p =>
      some { transfer_type := "from"
             transfer_pair_currency := p.to_currency
             transfer_pair_amount := p.to_amount
             transfer_pair_transaction_id := p.to_transaction_id
             exchange_rate := p.exchange_rate }
  | none =>
      match transfers.find? (fun p => p.to_transaction_id == tid) with
      | some p =>
          some { transfer_type := "to"
                 transfer_pair_currency := p.from_currency
                 transfer_pair_amount := p.from_amount
                 transfer_pair_transaction_id := p.from_transaction_id
                 exchange_rate := p.exchange_rate }
      | none => none

/-- One output row of `match_transactions`. The trailing `zen_cells` list
carries the `zen_{col}` copies of the whole external row. -/
structure MatchRecord where
  zen_date : ℚ
  zen_amount : ℚ
  zen_amount_column : String
  credo_date : Option ℚ
  credo_amount : ℚ
  credo_description : String
  credo_currency : String
  credo_transaction_id : Nat
  match_quality : String
  is_currency_transfer : Bool
  transfer : Option TransferInfo
  zen_cells : List (String × Option ℚ)
deriving Repr, DecidableEq

/-- Quality flag: exact when the two amounts differ by less than 0.01
absolute, approximate otherwise. -/
def matchQuality (zen_amount credo_amount : ℚ) : String :=
  if absQ (zen_amount - credo_amount) < 1 / 100 then "exact" else "approximate"

/-- Candidate filter of one amount slot: Credo rows whose timestamp lies
in the inclusive day window around the external date, then whose signed
amount lies between `zen_amount * (1 - tol)` and `zen_amount * (1 + tol)`
inclusive, exactly as the source computes the two bounds (no reordering
for negative amounts). -/
def slotMatches (credo : List BankTransaction) (zen_date : ℚ) (date_tolerance : ℤ)
    (zen_amount : ℚ) (amount_tolerance : ℚ) : List BankTransaction :=
  let date_min := zen_date - (date_tolerance : ℚ)
  let date_max := zen_date + (date_tolerance : ℚ)
  let date_matches := credo.filter (fun t =>
    match t.operationDateTime with
    | some ot => decide (date_min ≤ ot) && decide (ot ≤ date_max)
    | none => false)
  let amount_min := zen_amount * (1 - amount_tolerance)
  let amount_max := zen_amount * (1 + amount_tolerance)
  date_matches.filter (fun t =>
    decide (amount_min ≤ signedAmount t) && decide (signedAmount t ≤ amount_max))

/-- The output row built for one candidate (the `row = {...}` literal plus
the `zen_{col}` columns and the transfer annotation). -/
def mkMatchRecord (columns : List String) (transfers : List TransferPair) (row : ZenRow)
    (zen_date zen_amount : ℚ) (amount_col : String) (t : BankTransaction) : MatchRecord :=
  let ti := transferInfoFor transfers t.transactionId
  { zen_date := zen_date
    zen_amount := zen_amount
    zen_amount_column := amount_col
    credo_date := t.operationDateTime
    credo_amount := signedAmount t
    credo_description := t.description
    credo_currency := t.currency
    credo_transaction_id := t.transactionId
    match_quality := matchQuality zen_amount (signedAmount t)
    is_currency_transfer := ti.isSome
    transfer := ti
    zen_cells := columns.map (fun c => (c, getCell row c)) }

/-- Inner loop body over one amount column: a null or zero cell is
skipped; an outcome-named column's value is forced negative with
`-abs`; the candidates' records are appended to the accumulator. -/
def slotStep (columns : List String) (credo : List BankTransaction)
    (transfers : List TransferPair) (date_tolerance : ℤ) (amount_tolerance : ℚ)
    (row : ZenRow) (zen_date : ℚ) (acc : List MatchRecord) (amount_col : String) :
    List MatchRecord :=
  match getCell row amount_col with
  | none => acc
  | some v =>
    if v = 0 then acc
    else
      let zen_amount := if hasSub amount_col "outcome" then -(absQ v) else v
      acc ++ (slotMatches credo zen_date date_tolerance zen_amount amount_tolerance).map
        (mkMatchRecord columns transfers row zen_date zen_amount amount_col)

/-- Outer loop body over one external row: a row with a missing date is
skipped entirely, otherwise every amount column is processed in order. -/
def rowStep (columns : List String) (credo : List BankTransaction)
    (transfers : List TransferPair) (date_tolerance : ℤ) (amount_tolerance : ℚ)
    (date_col : String) (amount_cols : List String)
    (acc : List MatchRecord) (row : ZenRow) : List MatchRecord :=
  match getCell row date_col with
  | none => acc
  | some zen_date =>
      amount_cols.foldl
        (slotStep columns credo transfers date_tolerance amount_tolerance row zen_date) acc

/-- Matcher `match_transactions`: resolve the date column (first match)
and the amount columns, failing with a configuration error when either
category is absent, then accumulate the match records row by row. -/
def match_transactions (zen : ZenTable) (credo : List BankTransaction)
    (transfers : List TransferPair) (date_tolerance : ℤ) (amount_tolerance : ℚ) :
    Except String (List MatchRecord) :=
  match dateColumns zen with
  | [] => .error "No date columns found in ZenMoney CSV"
  | date_col :: _ =>
    let amount_cols := amountColumns zen
    if amount_cols.isEmpty then .error "No amount columns found in ZenMoney CSV"
    else .ok (zen.rows.foldl
      (rowStep zen.columns credo transfers date_tolerance amount_tolerance date_col amount_cols)
      [])

/-- Ordering stated by the specification, written from its words: one
record per candidate, emitted external-row by external-row, amount slot
by amount slot within a row, candidate by candidate within the bank
collection. -/
def matchRecordsOrdered (columns : List String) (rows : List ZenRow)
    (credo : List BankTransaction) (transfers : List TransferPair)
    (date_tolerance : ℤ) (amount_tolerance : ℚ)
    (date_col : String) (amount_cols : List String) : List MatchRecord :=
  rows.flatMap (fun row =>
    match getCell row date_col with
    | none => []
    | some zen_date =>
      amount_cols.flatMap (fun amount_col =>
        match getCell row amount_col with
        | none => []
        | some v =>
          if v = 0 then []
          else
            let zen_amount := if hasSub amount_col "outcome" then -(absQ v) else v
            (slotMatches credo zen_date date_tolerance zen_amount amount_tolerance).map
              (mkMatchRecord columns transfers row zen_date zen_amount amount_col)))

/-! ### Lemmas about the transfer detector -/

/-- The length of a `filterMap` counts the inputs mapped to `some`. -/
theorem length_filterMap_eq_countP {α β : Type} (f : α → Option β) (l : List α) :
    (l.filterMap f).length = l.countP (fun a => (f a).isSome) := by
  induction l with
  | nil => rfl
  | cons x xs ih =>
      cases h : f x <;>
        simp [List.filterMap_cons, h, List.countP_cons, ih]

/-- A group emits a pair exactly when it has the clean debit/credit split
of the specification. -/
theorem mkTransferPair_isSome (k : GroupKey) (g : List BankTransaction) :
    (mkTransferPair k g).isSome = cleanDebitCreditSplit g := by
  rw [Bool.eq_iff_iff]
  unfold mkTransferPair cleanDebitCreditSplit
  constructor
  · intro h
    split at h
    · next hlen =>
        split at h
        · next hsp =>
            simp [hlen, List.countP_eq_length_filter, hsp.1, hsp.2]
        · simp at h
    · simp at h
  · intro h
    simp only [Bool.and_eq_true, beq_iff_eq] at h
    obtain ⟨⟨hlen, hd⟩, hc⟩ := h
    rw [List.countP_eq_length_filter] at hd hc
    rw [if_pos hlen, dif_pos ⟨hd, hc⟩]
    rfl

/-- Membership in the detector's output, unfolded to the producing group
key. -/
theorem mem_find_currency_transfers {credo : List BankTransaction} {p : TransferPair} :
    p ∈ find_currency_transfers credo
      ↔ ∃ k ∈ groupKeys credo, mkTransferPair k (groupOf credo k) = some p := by
  simp [find_currency_transfers, List.mem_filterMap]

/-- An emitted pair is built from a debit member and a credit member of
its group. -/
theorem mkTransferPair_eq_some {k : GroupKey} {g : List BankTransaction}
    {p : TransferPair} (h : mkTransferPair k g = some p) :
    ∃ d ∈ g, ∃ c ∈ g, d.debit.isSome ∧ c.credit.isSome ∧ p = mkPairFrom k d c := by
  unfold mkTransferPair at h
  split at h
  · split at h
    · next hsp =>
        injection h with h
        have hdne : g.filter (fun t => t.debit.isSome) ≠ [] := by
          intro hnil; rw [hnil] at hsp; simp at hsp
        have hcne : g.filter (fun t => t.credit.isSome) ≠ [] := by
          intro hnil; rw [hnil] at hsp; simp at hsp
        have hdmem := List.mem_filter.mp (List.head_mem hdne)
        have hcmem := List.mem_filter.mp (List.head_mem hcne)
        exact ⟨_, hdmem.1, _, hcmem.1, hdmem.2, hcmem.2, h.symm⟩
    · exact absurd h (by simp)
  · exact absurd h (by simp)

/-- Every member of a group is a feed transaction carrying the group's
account and timestamp and the exchange marker. -/
theorem mem_groupOf {credo : List BankTransaction} {k : GroupKey}
    {t : BankTransaction} (h : t ∈ groupOf credo k) :
    t ∈ credo ∧ t.accountNumber = k.1 ∧ t.operationDateTime = some k.2
      ∧ t.description = exchangeDescription := by
  simp only [groupOf, List.mem_filterMap] at h
  obtain ⟨⟨k', t'⟩, hmem, hif⟩ := h
  by_cases hk : k' = k
  · rw [if_pos hk] at hif
    injection hif with hif
    subst hif; subst hk
    simp only [keyedExchanges, List.mem_filterMap, List.mem_filter,
      Option.map_eq_some'] at hmem
    obtain ⟨u, ⟨hu, hdesc⟩, time, htime, heq⟩ := hmem
    injection heq with h1 h2
    subst h2
    subst h1
    exact ⟨hu, rfl, htime, by simpa using hdesc⟩
  · rw [if_neg hk] at hif
    exact absurd hif (by simp)

/-- Inserting into the sorted key list is a permutation. -/
theorem insertSortedKey_perm (k : GroupKey) (l : List GroupKey) :
    (insertSortedKey k l).Perm (k :: l) := by
  induction l with
  | nil => exact List.Perm.refl _
  | cons x xs ih =>
      unfold insertSortedKey
      split
      · exact List.Perm.refl _
      · exact (ih.cons x).trans (List.Perm.swap k x xs)

/-- The key sort is a permutation. -/
theorem sortKeys_perm (l : List GroupKey) : (sortKeys l).Perm l := by
  induction l with
  | nil => exact List.Perm.refl _
  | cons k ks ih => exact (insertSortedKey_perm k (sortKeys ks)).trans (ih.cons k)

/-- The iterated group keys are distinct. -/
theorem groupKeys_nodup (credo : List BankTransaction) : (groupKeys credo).Nodup := by
  exact (sortKeys_perm _).symm.nodup
    (List.nodup_dedup ((keyedExchanges credo).map Prod.fst))

/-- Shared counting fact: the detector emits exactly as many pairs as
there are groups with a clean debit/credit split. -/
theorem find_currency_transfers_length (credo : List BankTransaction) :
    (find_currency_transfers credo).length
      = ((groupKeys credo).filter
          (fun k => cleanDebitCreditSplit (groupOf credo k))).length := by
  rw [find_currency_transfers, length_filterMap_eq_countP,
    List.countP_eq_length_filter]
  congr 1
  apply List.filter_congr
  intro k _
  rw [mkTransferPair_isSome]

/-- An emitted pair carries its group's account and timestamp. -/
theorem mkTransferPair_fields {k : GroupKey} {g : List BankTransaction}
    {p : TransferPair} (h : mkTransferPair k g = some p) :
    p.account_number = k.1 ∧ p.operation_date_time = k.2 := by
  obtain ⟨d, _, c, _, _, _, hpe⟩ := mkTransferPair_eq_some h
  subst hpe
  exact ⟨rfl, rfl⟩

/-- C3. The detector emits exactly one TransferPair for each exchange
group keyed by account and operation time whose size is exactly 2 with
exactly one non-null debit member and one non-null credit member; every
other group contributes no pair, and the detector is total (no error). -/
theorem detect_one_pair_per_clean_group (credo : List BankTransaction) :
    (find_currency_transfers credo).length
        = ((groupKeys credo).filter
            (fun k => cleanDebitCreditSplit (groupOf credo k))).length
    ∧ ∀ k ∈ groupKeys credo,
        (cleanDebitCreditSplit (groupOf credo k) = true
          ↔ ∃ p ∈ find_currency_transfers credo,
              p.account_number = k.1 ∧ p.operation_date_time = k.2) := by
  refine ⟨find_currency_transfers_length credo, ?_⟩
  intro k hk
  constructor
  · intro hq
    have hsome : (mkTransferPair k (groupOf credo k)).isSome = true := by
      rw [mkTransferPair_isSome]; exact hq
    obtain ⟨p, hp⟩ := Option.isSome_iff_exists.mp hsome
    exact ⟨p, mem_find_currency_transfers.mpr ⟨k, hk, hp⟩, mkTransferPair_fields hp⟩
  · rintro ⟨p, hpmem, hacc, htime⟩
    obtain ⟨k2, hk2, hp⟩ := mem_find_currency_transfers.mp hpmem
    obtain ⟨hacc2, htime2⟩ := mkTransferPair_fields hp
    have hkk : k2 = k := Prod.ext (hacc2 ▸ hacc) (htime2 ▸ htime)
    rw [← mkTransferPair_isSome, ← hkk, hp]
    rfl

/-- C4. Under the feed invariants (unique transaction ids, exactly one of
debit/credit non-null per transaction) the two legs of every emitted pair
are distinct transactions, and no transaction id occurs in two different
pairs on either side. -/
theorem transfer_ids_exclusive (credo : List BankTransaction)
    (hids : (credo.map (fun t => t.transactionId)).Nodup)
    (hleg : ∀ t ∈ credo, t.debit.isSome = !t.credit.isSome) :
    (∀ p ∈ find_currency_transfers credo,
        p.from_transaction_id ≠ p.to_transaction_id)
    ∧ (find_currency_transfers credo).Pairwise (fun p q =>
        p.from_transaction_id ≠ q.from_transaction_id
        ∧ p.from_transaction_id ≠ q.to_transaction_id
        ∧ p.to_transaction_id ≠ q.from_transaction_id
        ∧ p.to_transaction_id ≠ q.to_transaction_id) := by
  have inj := List.inj_on_of_nodup_map hids
  constructor
  · intro p hp
    obtain ⟨k, hk, hmk⟩ := mem_find_currency_transfers.mp hp
    obtain ⟨d, hd, c, hc, hdi, hci, hpe⟩ := mkTransferPair_eq_some hmk
    have hdc := mem_groupOf hd
    have hcc := mem_groupOf hc
    subst hpe
    intro heq
    have hde : d = c := inj hdc.1 hcc.1 heq
    rw [hde, hleg c hcc.1, hci] at hdi
    simp at hdi
  · rw [find_currency_transfers]
    apply List.pairwise_filterMap.mpr
    refine (groupKeys_nodup credo).imp ?_
    intro k1 k2 hne p hp q hq
    obtain ⟨d1, hd1, c1, hc1, _, _, hpe⟩ :=
      mkTransferPair_eq_some (Option.mem_def.mp hp)
    obtain ⟨d2, hd2, c2, hc2, _, _, hqe⟩ :=
      mkTransferPair_eq_some (Option.mem_def.mp hq)
    have key : ∀ x1 x2, x1 ∈ groupOf credo k1 → x2 ∈ groupOf credo k2 →
        x1.transactionId ≠ x2.transactionId := by
      intro x1 x2 h1 h2 heq
      have m1 := mem_groupOf h1
      have m2 := mem_groupOf h2
      have hxx : x1 = x2 := inj m1.1 m2.1 heq
      apply hne
      have e1 : k1.1 = k2.1 := by rw [← m1.2.1, hxx, m2.2.1]
      have e2 : some k1.2 = some k2.2 := by rw [← m1.2.2.1, hxx, m2.2.2.1]
      exact Prod.ext e1 (Option.some.inj e2)
    subst hpe; subst hqe
    exact ⟨key d1 d2 hd1 hd2, key d1 c2 hd1 hc2, key c1 d2 hc1 hd2, key c1 c2 hc1 hc2⟩

/-- C5. A qualifying group whose debit leg carries amount 0 still emits
its pair, with the exchange rate flagged invalid (the non-finite quotient
is modelled as `none`); the detector does not fail and the total pair
count is still one per qualifying group. -/
theorem zero_debit_pair_still_emitted (credo : List BankTransaction) (k : GroupKey)
    (hk : k ∈ groupKeys credo)
    (hq : cleanDebitCreditSplit (groupOf credo k) = true)
    (hz : ∀ t ∈ groupOf credo k, t.debit.isSome = true → t.debit = some 0) :
    (∃ p ∈ find_currency_transfers credo,
        p.account_number = k.1 ∧ p.operation_date_time = k.2
        ∧ p.from_amount = 0 ∧ p.exchange_rate = none)
    ∧ (find_currency_transfers credo).length
        = ((groupKeys credo).filter
            (fun k2 => cleanDebitCreditSplit (groupOf credo k2))).length := by
  refine ⟨?_, find_currency_transfers_length credo⟩
  have hsome : (mkTransferPair k (groupOf credo k)).isSome = true := by
    rw [mkTransferPair_isSome]; exact hq
  obtain ⟨p, hp⟩ := Option.isSome_iff_exists.mp hsome
  obtain ⟨d, hd, c, hc, hdi, hci, hpe⟩ := mkTransferPair_eq_some hp
  have hd0 : d.debit = some 0 := hz d hd hdi
  subst hpe
  exact ⟨mkPairFrom k d c, mem_find_currency_transfers.mpr ⟨k, hk, hp⟩,
    rfl, rfl, by simp [mkPairFrom, hd0], by simp [mkPairFrom, hd0]⟩

/-! ### Lemmas about the matcher -/

/-- Generic shape of the imperative result-list accumulation: a fold
whose step appends a per-item block equals the accumulator followed by
the row-major concatenation of the blocks. -/
theorem foldl_append_eq_flatMap {α β : Type} (step : List β → α → List β)
    (f : α → List β) (hstep : ∀ acc x, step acc x = acc ++ f x) :
    ∀ (l : List α) (init : List β), l.foldl step init = init ++ l.flatMap f := by
  intro l
  induction l with
  | nil => intro init; simp
  | cons x xs ih =>
      intro init
      rw [List.foldl_cons, hstep, ih, List.flatMap_cons, List.append_assoc]

/-- The slot step only ever appends to its accumulator. -/
theorem slotStep_eq_append (columns : List String) (credo : List BankTransaction)
    (transfers : List TransferPair) (tol : ℤ) (amtol : ℚ) (row : ZenRow)
    (zd : ℚ) (acc : List MatchRecord) (col : String) :
    slotStep columns credo transfers tol amtol row zd acc col
      = acc ++ slotStep columns credo transfers tol amtol row zd [] col := by
  unfold slotStep
  cases h : getCell row col with
  | none => simp
  | some v =>
      by_cases hv : v = 0
      · simp [hv]
      · simp [hv]

/-- The row step only ever appends to its accumulator. -/
theorem rowStep_eq_append (columns : List String) (credo : List BankTransaction)
    (transfers : List TransferPair) (tol : ℤ) (amtol : ℚ)
    (date_col : String) (cols : List String) (acc : List MatchRecord) (row : ZenRow) :
    rowStep columns credo transfers tol amtol date_col cols acc row
      = acc ++ rowStep columns credo transfers tol amtol date_col cols [] row := by
  unfold rowStep
  cases h : getCell row date_col with
  | none => simp
  | some zd =>
      dsimp only
      rw [foldl_append_eq_flatMap _ _ (slotStep_eq_append columns credo transfers tol amtol row zd),
        foldl_append_eq_flatMap _ _ (slotStep_eq_append columns credo transfers tol amtol row zd),
        List.nil_append]

/-- One row's contribution is the slot-major concatenation over the
amount columns. -/
theorem rowStep_nil_eq_flatMap (columns : List String) (credo : List BankTransaction)
    (transfers : List TransferPair) (tol : ℤ) (amtol : ℚ)
    (date_col : String) (cols : List String) (row : ZenRow) :
    rowStep columns credo transfers tol amtol date_col cols [] row
      = match getCell row date_col with
        | none => []
        | some zd => cols.flatMap
            (fun col => slotStep columns credo transfers tol amtol row zd [] col) := by
  unfold rowStep
  cases h : getCell row date_col with
  | none => rfl
  | some zd =>
      dsimp only
      rw [foldl_append_eq_flatMap _ _ (slotStep_eq_append columns credo transfers tol amtol row zd),
        List.nil_append]

/-- Shared helper: when both column categories resolve, the matcher
returns the row-major ordered record list. -/
theorem match_transactions_eq_ordered (zen : ZenTable) (credo : List BankTransaction)
    (transfers : List TransferPair) (tol : ℤ) (amtol : ℚ)
    (date_col : String) (rest : List String)
    (hdate : dateColumns zen = date_col :: rest)
    (hamt : amountColumns zen ≠ []) :
    match_transactions zen credo transfers tol amtol
      = Except.ok (matchRecordsOrdered zen.columns zen.rows credo transfers tol amtol
          date_col (amountColumns zen)) := by
  unfold match_transactions
  rw [hdate]
  dsimp only
  have hempty : (amountColumns zen).isEmpty = false := by
    cases h : amountColumns zen with
    | nil => exact absurd h hamt
    | cons a l => rfl
  rw [hempty]
  simp only [Bool.false_eq_true, if_false]
  congr 1
  rw [foldl_append_eq_flatMap _ _
      (rowStep_eq_append zen.columns credo transfers tol amtol date_col (amountColumns zen)),
    List.nil_append]
  unfold matchRecordsOrdered
  refine congrArg zen.rows.flatMap (funext fun row => ?_)
  rw [rowStep_nil_eq_flatMap]
  cases h : getCell row date_col with
  | none => rfl
  | some zd =>
      refine congrArg (amountColumns zen).flatMap (funext fun col => ?_)
      unfold slotStep
      cases hc : getCell row col with
      | none => rfl
      | some v =>
          by_cases hv : v = 0
          · simp [hv]
          · simp [hv]

/-- C2. For fixed inputs and tolerances the matcher is a pure function,
so two runs return the same MatchRecord sequence; and that sequence is
exactly the specification's ordering: external rows in collection order,
then amount slots in resolved declaration order, then candidate bank
transactions in feed-discovery order. -/
theorem matcher_deterministic_and_ordered (zen : ZenTable)
    (credo : List BankTransaction) (transfers : List TransferPair)
    (tol : ℤ) (amtol : ℚ) (date_col : String) (rest : List String)
    (hdate : dateColumns zen = date_col :: rest)
    (hamt : amountColumns zen ≠ []) :
    match_transactions zen credo transfers tol amtol
      = Except.ok (matchRecordsOrdered zen.columns zen.rows credo transfers tol amtol
          date_col (amountColumns zen)) :=
  match_transactions_eq_ordered zen credo transfers tol amtol date_col rest hdate hamt

/-- C7. A ZenMoney table with no recognizable date column or no
recognizable amount column makes the whole match fail with a
configuration error before any row is processed, while resolvable
columns always give a normal (possibly empty) result list. -/
theorem config_error_on_missing_columns (zen : ZenTable)
    (credo : List BankTransaction) (transfers : List TransferPair)
    (tol : ℤ) (amtol : ℚ) :
    ((dateColumns zen = [] ∨ amountColumns zen = []) →
        ∃ msg, match_transactions zen credo transfers tol amtol
          = Except.error msg)
    ∧ (dateColumns zen ≠ [] → amountColumns zen ≠ [] →
        ∃ recs, match_transactions zen credo transfers tol amtol
          = Except.ok recs) := by
  constructor
  · intro h
    unfold match_transactions
    cases hd : dateColumns zen with
    | nil => exact ⟨_, rfl⟩
    | cons dc rest =>
        have ha : amountColumns zen = [] := by
          rcases h with h | h
          · rw [hd] at h; exact absurd h (by simp)
          · exact h
        dsimp only
        rw [ha]
        exact ⟨_, rfl⟩
  · intro hd ha
    cases hdd : dateColumns zen with
    | nil => exact absurd hdd hd
    | cons dc rest =>
        exact ⟨_, match_transactions_eq_ordered zen credo transfers tol amtol
          dc rest hdd ha⟩

/-- A run of amount columns all of whose cells are null or zero leaves
the accumulator unchanged. -/
theorem foldl_slotStep_skip (columns : List String) (credo : List BankTransaction)
    (transfers : List TransferPair) (tol : ℤ) (amtol : ℚ) (row : ZenRow) (zd : ℚ) :
    ∀ (cols : List String) (acc : List MatchRecord),
      (∀ c2 ∈ cols, getCell row c2 = none ∨ getCell row c2 = some 0) →
      cols.foldl (slotStep columns credo transfers tol amtol row zd) acc = acc := by
  intro cols
  induction cols with
  | nil => intro acc _; rfl
  | cons c cs ih =>
      intro acc h
      rw [List.foldl_cons]
      have hstep : slotStep columns credo transfers tol amtol row zd acc c = acc := by
        unfold slotStep
        rcases h c (by simp) with hc | hc
        · rw [hc]
        · rw [hc]; simp
      rw [hstep]
      exact ih acc (fun c2 hc2 => h c2 (by simp [hc2]))

/-- C8. A row with a missing date, and a slot with a null or zero cell,
are skipped without producing records and without error, and the
remaining rows are processed exactly as if the skipped row were absent
(in particular a row whose every amount slot is null or zero contributes
nothing). -/
theorem skipped_rows_and_slots (columns : List String) (rows : List ZenRow)
    (credo : List BankTransaction) (transfers : List TransferPair)
    (tol : ℤ) (amtol : ℚ) (date_col : String) (rest cols : List String)
    (row : ZenRow) (zd : ℚ) (acc : List MatchRecord) (col : String) :
    (getCell row date_col = none →
        rowStep columns credo transfers tol amtol date_col cols acc row = acc)
    ∧ ((getCell row col = none ∨ getCell row col = some 0) →
        slotStep columns credo transfers tol amtol row zd acc col = acc)
    ∧ (dateColumns ⟨columns, rows⟩ = date_col :: rest →
        getCell row date_col = none →
        match_transactions ⟨columns, row :: rows⟩ credo transfers tol amtol
          = match_transactions ⟨columns, rows⟩ credo transfers tol amtol)
    ∧ (dateColumns ⟨columns, rows⟩ = date_col :: rest →
        (∀ c2 ∈ amountColumns ⟨columns, rows⟩,
            getCell row c2 = none ∨ getCell row c2 = some 0) →
        match_transactions ⟨columns, row :: rows⟩ credo transfers tol amtol
          = match_transactions ⟨columns, rows⟩ credo transfers tol amtol) := by
  have hrowskip : ∀ (acc2 : List MatchRecord), getCell row date_col = none →
      rowStep columns credo transfers tol amtol date_col cols acc2 row = acc2 := by
    intro acc2 h
    unfold rowStep
    rw [h]
  have hslotskip : (getCell row col = none ∨ getCell row col = some 0) →
      slotStep columns credo transfers tol amtol row zd acc col = acc := by
    intro h
    unfold slotStep
    rcases h with hc | hc
    · rw [hc]
    · rw [hc]; simp
  refine ⟨hrowskip acc, hslotskip, ?_, ?_⟩
  · intro hdd hnone
    unfold match_transactions
    rw [show dateColumns ⟨columns, row :: rows⟩ = dateColumns ⟨columns, rows⟩ from rfl,
      show amountColumns ⟨columns, row :: rows⟩ = amountColumns ⟨columns, rows⟩ from rfl,
      hdd]
    dsimp only
    cases he : (amountColumns ⟨columns, rows⟩).isEmpty with
    | true => rfl
    | false =>
        congr 1
        rw [List.foldl_cons]
        congr 1
        unfold rowStep
        rw [hnone]
  · intro hdd hzero
    unfold match_transactions
    rw [show dateColumns ⟨columns, row :: rows⟩ = dateColumns ⟨columns, rows⟩ from rfl,
      show amountColumns ⟨columns, row :: rows⟩ = amountColumns ⟨columns, rows⟩ from rfl,
      hdd]
    dsimp only
    cases he : (amountColumns ⟨columns, rows⟩).isEmpty with
    | true => rfl
    | false =>
        have hinit : rowStep columns credo transfers tol amtol date_col
            (amountColumns ⟨columns, rows⟩) [] row = [] := by
          unfold rowStep
          cases hd2 : getCell row date_col with
          | none => rfl
          | some zd2 =>
              exact foldl_slotStep_skip columns credo transfers tol amtol row zd2
                (amountColumns ⟨columns, rows⟩) [] hzero
        congr 1
        rw [List.foldl_cons, hinit]

/-- C9. A non-zero slot drawn from an outcome-named column is forced
negative with `-abs` before the windows are computed: the emitted block
is exactly the one for signed amount `-(absQ v)`, which is negative. -/
theorem outcome_sign_normalized (columns : List String)
    (credo : List BankTransaction) (transfers : List TransferPair)
    (tol : ℤ) (amtol : ℚ) (row : ZenRow) (zd : ℚ) (acc : List MatchRecord)
    (col : String) (v : ℚ)
    (hout : hasSub col "outcome" = true)
    (hcell : getCell row col = some v) (hv : v ≠ 0) :
    slotStep columns credo transfers tol amtol row zd acc col
      = acc ++ (slotMatches credo zd tol (-(absQ v)) amtol).map
          (mkMatchRecord columns transfers row zd (-(absQ v)) col)
    ∧ -(absQ v) < 0 := by
  constructor
  · unfold slotStep
    rw [hcell]
    simp only [hv, if_false, hout, if_true]
  · unfold absQ
    rcases lt_trichotomy v 0 with h1 | h1 | h1
    · rw [if_pos h1]; linarith
    · exact absurd h1 hv
    · rw [if_neg (by linarith)]; linarith

/-- C10. The transfer annotation consults the from-side index first: a
candidate whose id is some pair's from-leg is annotated as the from side
of that (first such) pair with the to-leg attached, and the to-side index
is consulted only when the from-side lookup finds nothing; the emitted
record carries exactly this annotation. -/
theorem transfer_annotation_from_side_first (transfers : List TransferPair)
    (tid : Nat) (columns : List String) (row : ZenRow) (zd za : ℚ)
    (acol : String) (t : BankTransaction) :
    (∀ p, transfers.find? (fun q => q.from_transaction_id == tid) = some p →
        transferInfoFor transfers tid
          = some { transfer_type := "from"
                   transfer_pair_currency := p.to_currency
                   transfer_pair_amount := p.to_amount
                   transfer_pair_transaction_id := p.to_transaction_id
                   exchange_rate := p.exchange_rate })
    ∧ (transfers.find? (fun q => q.from_transaction_id == tid) = none →
        transferInfoFor transfers tid
          = (transfers.find? (fun q => q.to_transaction_id == tid)).map
              (fun p =>
                { transfer_type := "to"
                  transfer_pair_currency := p.from_currency
                  transfer_pair_amount := p.from_amount
                  transfer_pair_transaction_id := p.from_transaction_id
                  exchange_rate := p.exchange_rate }))
    ∧ (mkMatchRecord columns transfers row zd za acol t).transfer
        = transferInfoFor transfers t.transactionId
    ∧ (mkMatchRecord columns transfers row zd za acol t).is_currency_transfer
        = (transferInfoFor transfers t.transactionId).isSome := by
  refine ⟨?_, ?_, rfl, rfl⟩
  · intro p h
    unfold transferInfoFor
    rw [h]
  · intro h
    unfold transferInfoFor
    rw [h]
    cases h2 : transfers.find? (fun q => q.to_transaction_id == tid) <;> simp

/-! ### Concrete inputs for the worked scenarios -/

/-- The specification's worked row: date at day 0, outcome 99.5. -/
def zenScenario : ZenTable :=
  { columns := ["date", "outcome"],
    rows := [[("date", some 0), ("outcome", some 99.5)]] }

/-- One bank transaction a day later with signed amount -100. -/
def credoScenario : List BankTransaction :=
  [{ accountNumber := "A1", operationDateTime := some 1, transactionId := 31,
     stmtEntryId := 41, description := "Card payment", currency := "GEL",
     debit := some 100, credit := none, amountEquivalent := none }]

/-- C1. The specification requires the amount window of a negative slot
to be order-corrected so that its worked scenario (outcome 99.5, bank
signed amount -100, one day apart, tolerances 1 day and 0.01) yields an
approximate MatchRecord; the code leaves the scaled bounds inverted, the
band is empty, and the run returns no record at all. -/
theorem spec_scenario_lost_by_inverted_window :
    match_transactions zenScenario credoScenario [] 1 (1/100) = Except.ok [] := by
  have h1 : dateColumns zenScenario = ["date"] := by decide
  have h2 : amountColumns zenScenario = ["outcome"] := by decide
  have ho : hasSub "outcome" "outcome" = true := by decide
  rw [match_transactions_eq_ordered zenScenario credoScenario [] 1 (1/100) "date" []
      h1 (by simp [h2])]
  rw [h2]
  congr 1
  have hc1 : getCell [("date", some 0), ("outcome", some 99.5)] "date" = some 0 := rfl
  have hc2 : getCell [("date", some 0), ("outcome", some 99.5)] "outcome"
      = some 99.5 := rfl
  simp only [zenScenario, matchRecordsOrdered, List.flatMap_cons, List.flatMap_nil,
    hc1, hc2, ho, List.append_nil]
  norm_num [slotMatches, credoScenario, signedAmount, absQ, mkMatchRecord, matchQuality,
    transferInfoFor]

/-- Bank transaction at day 0 with signed amount -99, the exact lower
scaled bound of an external outcome of 100 at ratio 0.01. -/
def bankNeg99 : BankTransaction :=
  { accountNumber := "A1", operationDateTime := some 0, transactionId := 51,
    stmtEntryId := 61, description := "Card payment", currency := "GEL",
    debit := some 99, credit := none, amountEquivalent := none }

/-- Bank transaction with signed amount 99 = 100 * (1 - 0.01). -/
def bankPos99 : BankTransaction :=
  { accountNumber := "A1", operationDateTime := some 0, transactionId := 52,
    stmtEntryId := 62, description := "Deposit", currency := "GEL",
    debit := none, credit := some 99, amountEquivalent := none }

/-- Bank transaction with signed amount 101 = 100 * (1 + 0.01). -/
def bankPos101 : BankTransaction :=
  { accountNumber := "A1", operationDateTime := some 0, transactionId := 53,
    stmtEntryId := 63, description := "Deposit", currency := "GEL",
    debit := none, credit := some 101, amountEquivalent := none }

/-- Bank transaction with signed amount just past the upper bound. -/
def bankPos101eps : BankTransaction :=
  { accountNumber := "A1", operationDateTime := some 0, transactionId := 54,
    stmtEntryId := 64, description := "Deposit", currency := "GEL",
    debit := none, credit := some 101.001, amountEquivalent := none }

/-- Bank transaction exactly one day of tolerance away. -/
def bankDay1 : BankTransaction :=
  { accountNumber := "A1", operationDateTime := some 1, transactionId := 55,
    stmtEntryId := 65, description := "Deposit", currency := "GEL",
    debit := none, credit := some 100, amountEquivalent := none }

/-- Bank transaction one day beyond the tolerance window. -/
def bankDay2 : BankTransaction :=
  { accountNumber := "A1", operationDateTime := some 2, transactionId := 56,
    stmtEntryId := 66, description := "Deposit", currency := "GEL",
    debit := none, credit := some 100, amountEquivalent := none }

/-- C6. The inclusive-boundary behaviour holds for the date window and
for non-negative amounts (exact bounds in, epsilon beyond out), but for a
negative slot amount the claimed inclusive bound amount*(1-r) is NOT a
candidate: the un-reordered band is empty, so the boundary transaction is
dropped. -/
theorem tolerance_bounds_inclusive_only_for_positive_amounts :
    slotMatches [bankNeg99] 0 1 (-100) (1/100) = []
    ∧ slotMatches [bankPos99] 0 1 100 (1/100) = [bankPos99]
    ∧ slotMatches [bankPos101] 0 1 100 (1/100) = [bankPos101]
    ∧ slotMatches [bankPos101eps] 0 1 100 (1/100) = []
    ∧ slotMatches [bankDay1] 0 1 100 (1/100) = [bankDay1]
    ∧ slotMatches [bankDay2] 0 1 100 (1/100) = [] := by
  refine ⟨?_, ?_, ?_, ?_, ?_, ?_⟩ <;>
    norm_num [slotMatches, bankNeg99, bankPos99, bankPos101, bankPos101eps,
      bankDay1, bankDay2, signedAmount]

/-! ### Concrete witnesses -/

/-- The specification's exchange scenario: one debit leg of 100 USD and
one credit leg of 90 EUR at the same account and time. -/
def credoEx : List BankTransaction :=
  [{ accountNumber := "A1", operationDateTime := some 5, transactionId := 1,
     stmtEntryId := 11, description := "Currency exchange", currency := "USD",
     debit := some 100, credit := none, amountEquivalent := some 270 },
   { accountNumber := "A1", operationDateTime := some 5, transactionId := 2,
     stmtEntryId := 12, description := "Currency exchange", currency := "EUR",
     debit := none, credit := some 90, amountEquivalent := some 265 }]

theorem detect_one_pair_per_clean_group_witness :
    ("A1", (5 : ℚ)) ∈ groupKeys credoEx
    ∧ cleanDebitCreditSplit (groupOf credoEx ("A1", 5)) = true
    ∧ ∃ p ∈ find_currency_transfers credoEx,
        p.account_number = ("A1", (5 : ℚ)).1
        ∧ p.operation_date_time = ("A1", (5 : ℚ)).2 :=
  ⟨by decide, by decide,
    ((detect_one_pair_per_clean_group credoEx).2 ("A1", 5) (by decide)).mp (by decide)⟩

theorem transfer_ids_exclusive_witness :
    (credoEx.map (fun t => t.transactionId)).Nodup
    ∧ (∀ t ∈ credoEx, t.debit.isSome = !t.credit.isSome)
    ∧ (∀ p ∈ find_currency_transfers credoEx,
        p.from_transaction_id ≠ p.to_transaction_id)
    ∧ (find_currency_transfers credoEx).Pairwise (fun p q =>
        p.from_transaction_id ≠ q.from_transaction_id
        ∧ p.from_transaction_id ≠ q.to_transaction_id
        ∧ p.to_transaction_id ≠ q.from_transaction_id
        ∧ p.to_transaction_id ≠ q.to_transaction_id) :=
  ⟨by decide, by decide,
    (transfer_ids_exclusive credoEx (by decide) (by decide)).1,
    (transfer_ids_exclusive credoEx (by decide) (by decide)).2⟩

/-- An exchange group whose debit leg carries amount exactly 0. -/
def credoZeroDebit : List BankTransaction :=
  [{ accountNumber := "B2", operationDateTime := some 7, transactionId := 3,
     stmtEntryId := 13, description := "Currency exchange", currency := "USD",
     debit := some 0, credit := none, amountEquivalent := none },
   { accountNumber := "B2", operationDateTime := some 7, transactionId := 4,
     stmtEntryId := 14, description := "Currency exchange", currency := "EUR",
     debit := none, credit := some 90, amountEquivalent := none }]

theorem zero_debit_pair_still_emitted_witness :
    ("B2", (7 : ℚ)) ∈ groupKeys credoZeroDebit
    ∧ cleanDebitCreditSplit (groupOf credoZeroDebit ("B2", 7)) = true
    ∧ (∀ t ∈ groupOf credoZeroDebit ("B2", 7),
        t.debit.isSome = true → t.debit = some 0)
    ∧ ((∃ p ∈ find_currency_transfers credoZeroDebit,
          p.account_number = ("B2", (7 : ℚ)).1
          ∧ p.operation_date_time = ("B2", (7 : ℚ)).2
          ∧ p.from_amount = 0 ∧ p.exchange_rate = none)
        ∧ (find_currency_transfers credoZeroDebit).length
            = ((groupKeys credoZeroDebit).filter
                (fun k2 => cleanDebitCreditSplit (groupOf credoZeroDebit k2))).length) :=
  ⟨by decide, by decide, by decide,
    zero_debit_pair_still_emitted credoZeroDebit ("B2", 7)
      (by decide) (by decide) (by decide)⟩

/-- A one-row ledger with resolvable date and income columns. -/
def zenW : ZenTable :=
  { columns := ["date", "income"],
    rows := [[("date", some 0), ("income", some 100)]] }

theorem matcher_deterministic_and_ordered_witness :
    dateColumns zenW = "date" :: []
    ∧ amountColumns zenW ≠ []
    ∧ match_transactions zenW [] [] 1 0
        = Except.ok (matchRecordsOrdered zenW.columns zenW.rows [] [] 1 0
            "date" (amountColumns zenW)) :=
  ⟨by decide, by decide,
    matcher_deterministic_and_ordered zenW [] [] 1 0 "date" [] (by decide) (by decide)⟩

/-- A ledger with no recognizable date column. -/
def zenNoDate : ZenTable :=
  { columns := ["payee", "amount"], rows := [] }

theorem config_error_on_missing_columns_witness :
    (dateColumns zenNoDate = [] ∨ amountColumns zenNoDate = [])
    ∧ ∃ msg, match_transactions zenNoDate [] [] 1 0 = Except.error msg :=
  ⟨Or.inl (by decide),
    (config_error_on_missing_columns zenNoDate [] [] 1 0).1 (Or.inl (by decide))⟩

/-- External row whose date cell is null. -/
def rowNoDate : ZenRow := [("date", none), ("income", some 5)]

/-- External row whose only amount slot is zero. -/
def rowZero : ZenRow := [("date", some 0), ("income", some 0)]

theorem skipped_rows_and_slots_witness :
    rowStep ["date", "income"] [] [] 1 0 "date" ["income"] [] rowNoDate = []
    ∧ slotStep ["date", "income"] [] [] 1 0 rowZero 0 [] "income" = []
    ∧ match_transactions ⟨["date", "income"], rowNoDate :: [rowZero]⟩ [] [] 1 0
        = match_transactions ⟨["date", "income"], [rowZero]⟩ [] [] 1 0
    ∧ match_transactions ⟨["date", "income"], rowZero :: []⟩ [] [] 1 0
        = match_transactions ⟨["date", "income"], []⟩ [] [] 1 0 :=
  ⟨(skipped_rows_and_slots ["date", "income"] [rowZero] [] [] 1 0 "date" []
      ["income"] rowNoDate 0 [] "income").1 rfl,
   (skipped_rows_and_slots ["date", "income"] [rowZero] [] [] 1 0 "date" []
      ["income"] rowZero 0 [] "income").2.1 (Or.inr rfl),
   (skipped_rows_and_slots ["date", "income"] [rowZero] [] [] 1 0 "date" []
      ["income"] rowNoDate 0 [] "income").2.2.1 (by decide) rfl,
   (skipped_rows_and_slots ["date", "income"] [] [] [] 1 0 "date" []
      ["income"] rowZero 0 [] "income").2.2.2 (by decide) (by decide)⟩

/-- External row holding outcome 50. -/
def rowOut50 : ZenRow := [("date", some 0), ("outcome", some 50)]

theorem outcome_sign_normalized_witness :
    slotStep ["date", "outcome"] [] [] 1 0 rowOut50 0 [] "outcome"
      = [] ++ (slotMatches [] 0 1 (-(absQ 50)) 0).map
          (mkMatchRecord ["date", "outcome"] [] rowOut50 0 (-(absQ 50)) "outcome")
    ∧ -(absQ (50 : ℚ)) < 0
    ∧ -(absQ (50 : ℚ)) = -50 :=
  ⟨(outcome_sign_normalized ["date", "outcome"] [] [] 1 0 rowOut50 0 [] "outcome" 50
      (by decide) rfl (by decide)).1,
   (outcome_sign_normalized ["date", "outcome"] [] [] 1 0 rowOut50 0 [] "outcome" 50
      (by decide) rfl (by decide)).2,
   by decide⟩

/-- Transfer pair whose from-leg id 5 also occurs as the to-leg of
`pairB`. -/
def pairA : TransferPair :=
  { account_number := "A1", operation_date_time := 5, from_currency := "USD",
    to_currency := "EUR", from_amount := 100, to_amount := 90,
    from_transaction_id := 5, to_transaction_id := 7, from_stmt_entry_id := 15,
    to_stmt_entry_id := 17, exchange_rate := none,
    from_amount_equivalent := none, to_amount_equivalent := none }

/-- Transfer pair whose to-leg id is 5. -/
def pairB : TransferPair :=
  { account_number := "A1", operation_date_time := 6, from_currency := "EUR",
    to_currency := "USD", from_amount := 90, to_amount := 100,
    from_transaction_id := 8, to_transaction_id := 5, from_stmt_entry_id := 18,
    to_stmt_entry_id := 19, exchange_rate := none,
    from_amount_equivalent := none, to_amount_equivalent := none }

theorem transfer_annotation_from_side_first_witness :
    List.find? (fun q => q.from_transaction_id == 5) [pairA, pairB] = some pairA
    ∧ transferInfoFor [pairA, pairB] 5
        = some { transfer_type := "from"
                 transfer_pair_currency := pairA.to_currency
                 transfer_pair_amount := pairA.to_amount
                 transfer_pair_transaction_id := pairA.to_transaction_id
                 exchange_rate := pairA.exchange_rate } :=
  ⟨by decide,
    (transfer_annotation_from_side_first [pairA, pairB] 5 [] [] 0 0 "x"
      { accountNumber := "Z", operationDateTime := none, transactionId := 0,
        stmtEntryId := 0, description := "none", currency := "GEL",
        debit := none, credit := none, amountEquivalent := none }).1
      pairA (by decide)⟩
